import Mathlib

/-!
Verification of the generic-api-scaffold event pipeline.

Shallow embedding of the Go sources:
  - internal/bus (EventBus, DataCollectedEvent, Subscribe, Publish)
  - internal/app/collector.go (Collector.Start loop)
  - internal/infra influx repository (NewInfluxRepo and its subscriber closure)

Modelling conventions:
  - Go `float64` values are modelled by ℚ: the program never performs
    arithmetic on readings, it only copies them, so the embedding is exact
    for every representable literal (23.5 = 47/2).
  - Go `map[string]T` is modelled by an association list `List (String × T)`;
    a real Go map has pairwise distinct keys, stated where needed as a
    `keysNodup` hypothesis.
  - Goroutine spawning in `Publish` is modelled by returning the list of
    dispatched (handler, event) tasks: `Publish` itself invokes no handler
    and returns as soon as the list is built, which is the fire-and-forget
    behaviour of `go sub(e)`.
  - External collaborators (time.Now, the InfluxDB client library) are
    modelled by an oracle record carrying the wall-clock value and the
    error outcomes of the library calls; the repository code under
    verification is translated literally against that oracle.
-/

namespace Scaffold

/-! ## internal/bus: DataCollectedEvent and EventBus -/

/-- Readings map, Go `map[string]float64`, as an association list. -/
abbrev Readings := List (String × ℚ)

/-- The keys of a readings map. -/
def readingKeys (m : Readings) : List String := m.map Prod.fst

/-- A real Go map has pairwise distinct keys. -/
def keysNodup (m : Readings) : Prop := (readingKeys m).Nodup

instance (m : Readings) : Decidable (keysNodup m) := by
  unfold keysNodup; infer_instance

/-- Go struct `bus.DataCollectedEvent { DeviceID string; Values map[string]float64 }`. -/
structure DataCollectedEvent where
  DeviceID : String
  Values : Readings
deriving DecidableEq, Repr

/-- Go struct `bus.EventBus`: the subscriber registry, an ordered sequence of
handlers of type `H` (the logger field plays no role in the registry logic). -/
structure EventBus (H : Type) where
  subscribers : List H
deriving Repr

/-- `bus.NewEventBus`: a bus with an empty registry. -/
def NewEventBus (H : Type) : EventBus H := { subscribers := [] }

/-- `bus.(*EventBus).Subscribe`: `b.subscribers = append(b.subscribers, fn)`. -/
def Subscribe {H : Type} (b : EventBus H) (fn : H) : EventBus H :=
  { b with subscribers := b.subscribers ++ [fn] }

/-- `bus.(*EventBus).Publish`: for each registered subscriber, spawn
`go sub(e)`.  The result is the bus (whose registry the method does not
touch) together with the list of spawned tasks, each a pair of the handler
and the event it was handed.  `Publish` returns once the tasks are spawned,
without invoking or awaiting any handler, and yields no other value. -/
def Publish {H : Type} (b : EventBus H) (e : DataCollectedEvent) :
    EventBus H × List (H × DataCollectedEvent) :=
  (b, b.subscribers.map (fun sub => (sub, e)))

/-! ## internal/app/collector.go: the producer loop -/

/-- `time.NewTicker(3 * time.Second)`: the tick interval, in time units
(seconds). -/
def tickInterval : ℕ := 3

/-- The ticker created by `time.NewTicker(d)` first fires after one full
interval and then every interval: the k-th tick (k = 0, 1, ...) fires at
time `d * (k + 1)`. -/
def tickTime (k : ℕ) : ℕ := tickInterval * (k + 1)

/-- The event built on each tick of `Collector.Start`:
`DataCollectedEvent{DeviceID: "A1", Values: map[string]float64{"temp": 23.5}}`. -/
def collectorEvent : DataCollectedEvent :=
  { DeviceID := "A1", Values := [("temp", (47 : ℚ) / 2)] }

/-- One outcome of the `select` in the `Collector.Start` loop: either the
cancellation channel `ctx.Done()` fired, or the ticker channel `ticker.C`
fired. -/
inductive LoopInput where
  | done
  | tick
deriving DecidableEq, Repr

/-- Observable outcome of running the `Collector.Start` loop on a sequence
of select outcomes: the events published to the bus in order, whether the
loop has returned, and whether `ticker.Stop()` (deferred, so run exactly on
return) has executed. -/
structure LoopResult where
  published : List DataCollectedEvent
  exited : Bool
  tickerStopped : Bool
deriving DecidableEq, Repr

/-- `Collector.Start` as a function of the sequence of select outcomes it
observes.  On `done` it logs and returns (running the deferred
`ticker.Stop()`), consuming nothing further; on `tick` it publishes
`collectorEvent` via `c.bus.Publish` and loops.  An exhausted input list
means the loop is still blocked in `select`. -/
def collectorRun : List LoopInput → LoopResult
  | [] => { published := [], exited := false, tickerStopped := false }
  | .done :: _ => { published := [], exited := true, tickerStopped := true }
  | .tick :: rest =>
      let r := collectorRun rest
      { r with published := collectorEvent :: r.published }

/-! ## internal/infra influx repository -/

/-- The relevant process environment: `os.Getenv` returns `""` for an unset
variable, so each variable is a plain string and absence is the empty
string. -/
structure InfluxEnv where
  url : String
  username : String
  password : String
  database : String
  precision : String
  timeout : String
deriving DecidableEq, Repr

/-- A duration in nanoseconds (Go `time.Duration`). -/
abbrev Duration := ℕ

/-- Unit table of Go `time.ParseDuration`, scale in nanoseconds. -/
def durationUnits : List (String × ℕ) :=
  [("ns", 1), ("us", 1000), ("ms", 1000000),
   ("s", 1000000000), ("m", 60000000000), ("h", 3600000000000)]

/-- Leading decimal digits of a character list, and the remainder. -/
def splitDigits : List Char → List Char × List Char
  | [] => ([], [])
  | c :: cs =>
      if c.isDigit then
        let p := splitDigits cs
        (c :: p.1, p.2)
      else ([], c :: cs)

/-- Leading letters of a character list, and the remainder. -/
def splitLetters : List Char → List Char × List Char
  | [] => ([], [])
  | c :: cs =>
      if c.isAlpha then
        let p := splitLetters cs
        (c :: p.1, p.2)
      else ([], c :: cs)

/-- Numeric value of a digit string. -/
def digitsToNat (ds : List Char) : ℕ :=
  ds.foldl (fun a c => a * 10 + (c.toNat - 48)) 0

/-- Modelled from the library: core of `time.ParseDuration`, on the integer
fragment of its grammar — a nonempty sequence of `<digits><unit>`
components (signs and fractional parts, unused by this program, are outside
the model and rejected).  The fuel is the remaining input length plus one;
each component consumes at least one character. -/
def parseDurationAux : ℕ → List Char → Option Duration
  | 0, _ => none
  | _ + 1, [] => some 0
  | fuel + 1, cs =>
      let dp := splitDigits cs
      if dp.1 = [] then none
      else
        let up := splitLetters dp.2
        match durationUnits.lookup (String.mk up.1) with
        | none => none
        | some scale =>
            match parseDurationAux fuel up.2 with
            | none => none
            | some rest => some (digitsToNat dp.1 * scale + rest)

/-- Modelled from the library: `time.ParseDuration` (integer fragment).
Fails on the empty string and on any string that is not a nonempty sequence
of digit-unit components. -/
def parseDuration (s : String) : Option Duration :=
  if s.data = [] then none
  else parseDurationAux (s.data.length + 1) s.data

/-- The configuration `NewInfluxRepo` resolves from the environment after
applying defaults. -/
structure InfluxConfig where
  url : String
  username : String
  password : String
  database : String
  precision : String
  timeout : Duration
deriving DecidableEq, Repr

/-- The configuration-resolution phase of `NewInfluxRepo`: read each
environment variable, substitute the stated default when it is empty,
`log.Fatal` (modelled as `Except.error`) when the database name is absent
or the timeout does not parse. -/
def resolveInfluxConfig (env : InfluxEnv) : Except String InfluxConfig :=
  let influxURL := if env.url = "" then "http://localhost:8086" else env.url
  let influxUsername := if env.username = "" then "admin" else env.username
  let influxPassword := if env.password = "" then "" else env.password
  if env.database = "" then .error "influx database is required"
  else
    let influxPrecision := if env.precision = "" then "s" else env.precision
    let influxTimeout := if env.timeout = "" then "5s" else env.timeout
    match parseDuration influxTimeout with
    | none => .error "failed to parse influx timeout"
    | some timeout =>
        .ok { url := influxURL, username := influxUsername,
              password := influxPassword, database := env.database,
              precision := influxPrecision, timeout := timeout }

/-- A log line emitted by the subscriber closure. -/
inductive LogEntry where
  | errorPointCreate (msg : String)
  | errorWrite (msg : String)
  | infoWriteSuccess (device : String)
deriving DecidableEq, Repr

/-- An InfluxDB data point, as built by `client.NewPoint("device_data",
tags, fields, time.Now())`. -/
structure Point where
  measurement : String
  tags : List (String × String)
  fields : Readings
  timestamp : ℕ
deriving DecidableEq, Repr

/-- A batch of points, as built by `client.NewBatchPoints` and filled by
`bp.AddPoint`. -/
structure Batch where
  database : String
  precision : String
  points : List Point
deriving DecidableEq, Repr

/-- Oracle for the external calls one handler invocation makes: the value
`time.Now()` returns, the error component of `client.NewBatchPoints`, the
error outcome of `client.NewPoint`, and the error outcome of
`client.Write`.  These are results of library and system calls, not
choices of the repository code. -/
structure HandlerOracle where
  now : ℕ
  batchErr : Option String
  pointErr : Option String
  writeErr : Option String
deriving DecidableEq, Repr

/-- Everything one handler invocation does that is observable from outside:
the log lines it emits and the batches it hands to `client.Write`, in
order. -/
structure HandlerOutput where
  logs : List LogEntry
  writes : List Batch
deriving DecidableEq, Repr

/-- `fields := make(map[string]interface{}, len(e.Values)); for k, v :=
range e.Values { fields[k] = v }` — map assignment: replace the value when
the key is present, append otherwise. -/
def setField (m : Readings) (k : String) (v : ℚ) : Readings :=
  if m.any (fun kv => kv.1 = k) then
    m.map (fun kv => if kv.1 = k then (k, v) else kv)
  else m ++ [(k, v)]

/-- The fresh copy of the readings map built by the handler's range loop. -/
def copyFields (vals : Readings) : Readings :=
  vals.foldl (fun acc kv => setField acc kv.1 kv.2) []

/-- The subscriber closure registered by `NewInfluxRepo` via
`eb.Subscribe`, on the runs where `client.NewBatchPoints` succeeds (the
oracle's `batchErr` is irrelevant here; `influxHandlerRun` below is the
general model including a failed batch creation), translated line by line:

  - `bp, _ := client.NewBatchPoints(...)` — the batch is configured with
    the resolved database and precision; the error result is discarded;
  - tags `{device: e.DeviceID}`, fields copied from `e.Values`;
  - `pt, err := client.NewPoint("device_data", tags, fields, time.Now())`
    — on error, log `influx point create failed` and return;
  - `bp.AddPoint(pt)`; `repo.client.Write(bp)` — on error, log
    `influx write failed` and return;
  - otherwise log `influx write success` with the device id. -/
def influxHandler (cfg : InfluxConfig) (o : HandlerOracle)
    (e : DataCollectedEvent) : HandlerOutput :=
  let bp : Batch := { database := cfg.database, precision := cfg.precision,
                      points := [] }
  let tags := [("device", e.DeviceID)]
  let fields := copyFields e.Values
  match o.pointErr with
  | some msg => { logs := [.errorPointCreate msg], writes := [] }
  | none =>
      let pt : Point := { measurement := "device_data", tags := tags,
                          fields := fields, timestamp := o.now }
      let bp := { bp with points := bp.points ++ [pt] }
      match o.writeErr with
      | some msg => { logs := [.errorWrite msg], writes := [bp] }
      | none => { logs := [.infoWriteSuccess e.DeviceID], writes := [bp] }

/-- The general model of the subscriber closure, including a failed
batch-points creation.  Per the library contract of
`client.NewBatchPoints`, the returned `BatchPoints` interface is nil
exactly when the call errs, so `bp, _ := client.NewBatchPoints(...)` binds
a nil batch on error (the error value itself is discarded and never
logged).  If `client.NewPoint` fails the handler logs and returns before
touching `bp`; otherwise `bp.AddPoint(pt)` executes, and on a nil
interface it panics — the handler aborts producing no output, modelled as
`none`. -/
def influxHandlerRun (cfg : InfluxConfig) (o : HandlerOracle)
    (e : DataCollectedEvent) : Option HandlerOutput :=
  let bpOpt : Option Batch :=
    match o.batchErr with
    | some _ => none
    | none => some { database := cfg.database, precision := cfg.precision,
                     points := [] }
  let tags := [("device", e.DeviceID)]
  let fields := copyFields e.Values
  match o.pointErr with
  | some msg => some { logs := [.errorPointCreate msg], writes := [] }
  | none =>
      let pt : Point := { measurement := "device_data", tags := tags,
                          fields := fields, timestamp := o.now }
      match bpOpt with
      | none => none
      | some bp =>
          let bp := { bp with points := bp.points ++ [pt] }
          match o.writeErr with
          | some msg => some { logs := [.errorWrite msg], writes := [bp] }
          | none =>
              some { logs := [.infoWriteSuccess e.DeviceID], writes := [bp] }

/-- The concrete handler type `func(bus.DataCollectedEvent)` in the context
of the influx repository: a function of the external-call oracle and of the
event. -/
abbrev Handler := HandlerOracle → DataCollectedEvent → HandlerOutput

/-- Go struct `infra.InfluxRepo`, carrying its resolved configuration (the
logger and the opaque client handle hold no registry or data state). -/
structure InfluxRepo where
  config : InfluxConfig

/-- `infra.NewInfluxRepo` against a given environment, client-creation
outcome and event bus: resolve the configuration (any `log.Fatal` is
`Except.error`), create the HTTP client (`clientErr` is the error result of
`client.NewHTTPClient`; an error is `log.Fatal`), build the repo, register
the subscriber closure with `eb.Subscribe`, and return the repo together
with the updated bus. -/
def NewInfluxRepo (env : InfluxEnv) (clientErr : Option String)
    (eb : EventBus Handler) : Except String (InfluxRepo × EventBus Handler) :=
  match resolveInfluxConfig env with
  | .error msg => .error msg
  | .ok cfg =>
      match clientErr with
      | some _ => .error "failed to connect influxdb"
      | none =>
          let repo : InfluxRepo := { config := cfg }
          .ok (repo, Subscribe eb (influxHandler cfg))

/-- A sequence of independent handler invocations: the bus dispatches each
delivered event on its own goroutine, and the closure keeps no state across
invocations, so a run over a list of (oracle, event) deliveries is the list
of the individual outputs. -/
def processEvents (cfg : InfluxConfig)
    (inputs : List (HandlerOracle × DataCollectedEvent)) : List HandlerOutput :=
  inputs.map (fun p => influxHandler cfg p.1 p.2)

/-! ## Concrete instances used to exercise the theorems -/

/-- The event of the round-trip scenario:
`Event{sourceID: "A1", readings: {"temp": 23.5}}`. -/
def eventA1 : DataCollectedEvent :=
  { DeviceID := "A1", Values := [("temp", (47 : ℚ) / 2)] }

/-- An environment supplying only the required database name. -/
def envGood : InfluxEnv :=
  { url := "", username := "", password := "", database := "telemetry",
    precision := "", timeout := "" }

/-- An environment with the database name absent. -/
def envMissingDB : InfluxEnv :=
  { url := "", username := "", password := "", database := "",
    precision := "", timeout := "" }

/-- An environment with an unparsable timeout string. -/
def envBadTimeout : InfluxEnv :=
  { url := "", username := "", password := "", database := "telemetry",
    precision := "", timeout := "never" }

/-- The configuration `envGood` resolves to: every default applied. -/
def cfgA : InfluxConfig :=
  { url := "http://localhost:8086", username := "admin", password := "",
    database := "telemetry", precision := "s", timeout := 5000000000 }

/-- An oracle for a delivery whose store write fails. -/
def oFail : HandlerOracle :=
  { now := 0, batchErr := none, pointErr := none, writeErr := some "timeout" }

/-- An oracle for a delivery where every external call succeeds. -/
def oOk : HandlerOracle :=
  { now := 1, batchErr := none, pointErr := none, writeErr := none }

/-- A fully successful delivery with the wall clock at 5. -/
def oClock5 : HandlerOracle :=
  { now := 5, batchErr := none, pointErr := none, writeErr := none }

/-- A failed delivery followed by a successful one. -/
def deliveriesA : List (HandlerOracle × DataCollectedEvent) :=
  [(oFail, eventA1), (oOk, eventA1)]

/-- An oracle for a delivery whose batch-points creation errs (e.g. an
invalid precision configuration) while every other external call
succeeds. -/
def oBatchFail : HandlerOracle :=
  { now := 5, batchErr := some "invalid precision", pointErr := none,
    writeErr := none }

/-! ## Helper lemmas -/

theorem setField_of_not_mem (acc : Readings) (k : String) (v : ℚ)
    (h : k ∉ readingKeys acc) : setField acc k v = acc ++ [(k, v)] := by
  unfold setField
  rw [if_neg]
  simp only [List.any_eq_true, decide_eq_true_eq, not_exists, not_and]
  intro kv hkv heq
  exact h (heq ▸ List.mem_map_of_mem Prod.fst hkv)

theorem readingKeys_append (a b : Readings) :
    readingKeys (a ++ b) = readingKeys a ++ readingKeys b := by
  simp [readingKeys]

theorem copyFields_foldl (vals : Readings) :
    ∀ acc : Readings, (readingKeys vals).Nodup →
      (∀ k, k ∈ readingKeys vals → k ∉ readingKeys acc) →
      vals.foldl (fun a kv => setField a kv.1 kv.2) acc = acc ++ vals := by
  induction vals with
  | nil => intro acc _ _; simp
  | cons kv rest ih =>
      intro acc hnd hdis
      have hnd0 : (kv.1 :: readingKeys rest).Nodup := hnd
      have hnd' : (readingKeys rest).Nodup := hnd0.of_cons
      have hhead : kv.1 ∉ readingKeys rest := (List.nodup_cons.mp hnd0).1
      have hdis' : ∀ k, k ∈ readingKeys rest → k ∉ readingKeys acc :=
        fun k hk => hdis k (List.mem_cons_of_mem kv.1 hk)
      have hk : kv.1 ∉ readingKeys acc :=
        hdis kv.1 (List.mem_cons_self kv.1 (readingKeys rest))
      rw [List.foldl_cons, setField_of_not_mem acc kv.1 kv.2 hk]
      rw [ih (acc ++ [(kv.1, kv.2)]) hnd' ?_]
      · simp
      · intro k hk2 hmem
        rw [readingKeys_append] at hmem
        rcases List.mem_append.mp hmem with hacc | hone
        · exact hdis' k hk2 hacc
        · have hk1 : k = kv.1 := by simpa [readingKeys] using hone
          exact hhead (hk1 ▸ hk2)

theorem copyFields_eq (vals : Readings) (h : keysNodup vals) :
    copyFields vals = vals := by
  have := copyFields_foldl vals [] h (by simp [readingKeys])
  simpa [copyFields] using this

theorem collectorRun_tick (l : List LoopInput) :
    collectorRun (.tick :: l) =
      { collectorRun l with
        published := collectorEvent :: (collectorRun l).published } := rfl

/-! ## Claims -/

/-- C1: for every event `e` published via `EventBus.Publish`, every handler
present in the subscriber registry at the time of the call is dispatched
exactly once with `e` (the spawned tasks are exactly the subscribers, in
registry order, each paired with `e`, so each handler occurs among the
tasks paired with `e` as many times as it occurs in the registry), and
`Publish` invokes no handler and yields no value beyond the spawned tasks
and the untouched bus; this holds for every registry size N ≥ 0. -/
theorem publish_dispatches_each_subscriber_once {H : Type} [DecidableEq H]
    (b : EventBus H) (e : DataCollectedEvent) :
    (Publish b e).2 = b.subscribers.map (fun sub => (sub, e)) ∧
    (Publish b e).2.length = b.subscribers.length ∧
    (∀ h : H, (Publish b e).2.countP (fun t => t = (h, e)) =
      b.subscribers.countP (fun s => s = h)) ∧
    (Publish b e).1 = b := by
  refine ⟨rfl, by simp [Publish], ?_, rfl⟩
  intro h
  simp only [Publish, List.countP_map]
  congr 1
  funext s
  simp [Prod.ext_iff]

/-- C7: `Subscribe` appends the handler at the end of the registry, leaving
every previously registered handler and their relative order unchanged (the
old registry is literally the prefix of the new one); `Publish`, the only
other bus operation, leaves the registry untouched; the registry grows by
exactly one on each `Subscribe`, so no operation shortens it and no bound
on the subscriber count exists. -/
theorem subscribe_appends_registry {H : Type} (b : EventBus H) (fn : H)
    (e : DataCollectedEvent) :
    (Subscribe b fn).subscribers = b.subscribers ++ [fn] ∧
    (Subscribe b fn).subscribers.length = b.subscribers.length + 1 ∧
    (Subscribe b fn).subscribers.take b.subscribers.length = b.subscribers ∧
    (Publish b e).1.subscribers = b.subscribers := by
  refine ⟨rfl, by simp [Subscribe], ?_, rfl⟩
  simp [Subscribe]

/-- C4: while running and not cancelled, the producer loop publishes on
every tick exactly one event, with the fixed source identifier `"A1"` and
the synthesized reading `temp = 23.5`: a run observing n ticks and no
cancellation publishes exactly n copies of that event.  The interval is the
constant 3 time units; the k-th tick fires at time 3·(k+1), so the window
(3·w, 3·(w+1)] of each interval contains a tick (at least one event per
interval window) and no tick fires at or before time 0. -/
theorem collector_publishes_once_per_tick (n : ℕ) :
    collectorRun (List.replicate n .tick) =
      { published := List.replicate n collectorEvent, exited := false,
        tickerStopped := false } ∧
    collectorEvent = { DeviceID := "A1", Values := [("temp", (47 : ℚ) / 2)] } ∧
    tickInterval = 3 ∧
    (∀ k, tickTime k = 3 * (k + 1)) ∧
    (∀ w, tickInterval * w < tickTime w ∧ tickTime w ≤ tickInterval * (w + 1)) ∧
    (∀ k, 0 < tickTime k) := by
  refine ⟨?_, rfl, rfl, fun k => rfl, fun w => ⟨?_, ?_⟩, fun k => ?_⟩
  · induction n with
    | zero => rfl
    | succ m ih => simp [List.replicate_succ, collectorRun, ih]
  · simp [tickTime, tickInterval, Nat.mul_lt_mul_left]
  · simp [tickTime, tickInterval]
  · simp [tickTime, tickInterval]

/-- C5: once the cancellation signal is received, the producer loop exits
and the deferred `ticker.Stop()` runs, and no further publish occurs: a run
whose select outcomes contain a `done` is insensitive to everything after
the first `done`, ends exited with the ticker stopped, and publishes at
most one event per select outcome preceding the `done`. -/
theorem collector_cancellation_stops_publishing (pre post : List LoopInput) :
    collectorRun (pre ++ .done :: post) = collectorRun (pre ++ [.done]) ∧
    (collectorRun (pre ++ [.done])).exited = true ∧
    (collectorRun (pre ++ [.done])).tickerStopped = true ∧
    (collectorRun (pre ++ .done :: post)).published.length ≤ pre.length := by
  induction pre with
  | nil => simp [collectorRun]
  | cons i rest ih =>
      obtain ⟨e1, e2, e3, e4⟩ := ih
      cases i with
      | done => simp [collectorRun]
      | tick =>
          refine ⟨?_, ?_, ?_, ?_⟩
          · rw [List.cons_append, List.cons_append, collectorRun_tick,
              collectorRun_tick, e1]
          · rw [List.cons_append, collectorRun_tick]
            exact e2
          · rw [List.cons_append, collectorRun_tick]
            exact e3
          · rw [List.cons_append, collectorRun_tick]
            simpa using Nat.succ_le_succ e4

/-- C2: for every event delivered to the consumer handler whose point
creation succeeds, the submitted batch holds exactly the point with
measurement `"device_data"`, tag `device = sourceID`, fields equal to the
event's readings (the range-loop copy reproduces the map), and the
timestamp `time.Now()` taken at write time, which lies between the publish
time and write completion whenever the wall clock does. -/
theorem persisted_point_roundtrip (cfg : InfluxConfig) (o : HandlerOracle)
    (e : DataCollectedEvent) (tPub tDone : ℕ)
    (hok : o.pointErr = none) (hkeys : keysNodup e.Values)
    (h1 : tPub ≤ o.now) (h2 : o.now ≤ tDone) :
    (influxHandler cfg o e).writes =
      [{ database := cfg.database, precision := cfg.precision,
         points := [{ measurement := "device_data",
                      tags := [("device", e.DeviceID)],
                      fields := e.Values, timestamp := o.now }] }] ∧
    (∀ bp ∈ (influxHandler cfg o e).writes, ∀ pt ∈ bp.points,
      tPub ≤ pt.timestamp ∧ pt.timestamp ≤ tDone) := by
  have hcopy := copyFields_eq e.Values hkeys
  unfold influxHandler
  rcases hw : o.writeErr with _ | msg <;>
    simp [hok, hw, hcopy, h1, h2]

/-- C3: a delivered event whose point construction fails produces only the
`influx point create failed` log line and no write; one whose store write
errors produces only the `influx write failed` log line; in every case at
most one write call is made (no retry), and in a run over any sequence of
deliveries the i-th output is a function of the i-th delivery alone, so the
handling of an event is independent of any earlier failure and nothing
visible to the bus or producer changes. -/
theorem write_failure_contained (cfg : InfluxConfig)
    (inputs : List (HandlerOracle × DataCollectedEvent)) (i : ℕ)
    (o : HandlerOracle) (e : DataCollectedEvent)
    (h : inputs[i]? = some (o, e)) :
    (processEvents cfg inputs)[i]? = some (influxHandler cfg o e) ∧
    (∀ msg, o.pointErr = some msg →
      influxHandler cfg o e =
        { logs := [.errorPointCreate msg], writes := [] }) ∧
    (∀ msg, o.pointErr = none → o.writeErr = some msg →
      (influxHandler cfg o e).logs = [.errorWrite msg]) ∧
    (influxHandler cfg o e).writes.length ≤ 1 := by
  refine ⟨?_, ?_, ?_, ?_⟩
  · simp [processEvents, h]
  · intro msg hmsg
    unfold influxHandler
    rw [hmsg]
  · intro msg hnone hmsg
    unfold influxHandler
    rw [hnone, hmsg]
  · unfold influxHandler
    rcases o.pointErr with _ | m1 <;> rcases o.writeErr with _ | m2 <;> simp

/-- C6: at consumer construction, an absent database name, an unparsable
timeout string, and a failing client creation are each fatal
(`NewInfluxRepo` aborts with the corresponding diagnostic instead of
returning a repo), while every other variable falls back to its stated
default when absent: URL `http://localhost:8086`, username `admin`, empty
password, precision `s`, timeout `5s` (5·10⁹ ns). -/
theorem config_fatal_and_defaults (env : InfluxEnv) (ce : Option String)
    (eb : EventBus Handler) :
    (env.database = "" →
      NewInfluxRepo env ce eb = .error "influx database is required") ∧
    (env.database ≠ "" →
      parseDuration (if env.timeout = "" then "5s" else env.timeout) = none →
      NewInfluxRepo env ce eb = .error "failed to parse influx timeout") ∧
    (∀ msg cfg, resolveInfluxConfig env = .ok cfg → ce = some msg →
      NewInfluxRepo env ce eb = .error "failed to connect influxdb") ∧
    (∀ cfg, resolveInfluxConfig env = .ok cfg →
      (env.url = "" → cfg.url = "http://localhost:8086") ∧
      (env.username = "" → cfg.username = "admin") ∧
      (env.password = "" → cfg.password = "") ∧
      (env.precision = "" → cfg.precision = "s") ∧
      (env.timeout = "" → cfg.timeout = 5000000000) ∧
      cfg.database = env.database) := by
  refine ⟨?_, ?_, ?_, ?_⟩
  · intro hdb
    have hres : resolveInfluxConfig env = .error "influx database is required" := by
      simp [resolveInfluxConfig, hdb]
    simp [NewInfluxRepo, hres]
  · intro hdb hparse
    have hres : resolveInfluxConfig env = .error "failed to parse influx timeout" := by
      simp only [resolveInfluxConfig, if_neg hdb, hparse]
    simp [NewInfluxRepo, hres]
  · intro msg cfg hres hce
    simp [NewInfluxRepo, hres, hce]
  · intro cfg hres
    simp only [resolveInfluxConfig] at hres
    by_cases hdb : env.database = ""
    · rw [if_pos hdb] at hres
      cases hres
    · rw [if_neg hdb] at hres
      rcases hp : parseDuration (if env.timeout = "" then "5s" else env.timeout)
        with _ | t
      · rw [hp] at hres
        cases hres
      · rw [hp] at hres
        simp only [] at hres
        injection hres with hres
        subst hres
        refine ⟨fun h => by simp [h], fun h => by simp [h], fun h => by simp [h],
          fun h => by simp [h], fun h => ?_, rfl⟩
        rw [if_pos h] at hp
        have h5 : parseDuration "5s" = some 5000000000 := by decide
        have := h5.symm.trans hp
        injection this with h6
        exact h6.symm

/-- C8: constructing the persistence consumer registers exactly one handler
with the bus: whenever `NewInfluxRepo` succeeds, the resulting registry is
the prior registry with the repo's subscriber closure appended at the end,
one handler longer; the constructor performs no other `Subscribe` call. -/
theorem repo_subscribes_exactly_once (env : InfluxEnv) (ce : Option String)
    (eb : EventBus Handler) (repo : InfluxRepo) (eb2 : EventBus Handler)
    (h : NewInfluxRepo env ce eb = .ok (repo, eb2)) :
    eb2.subscribers = eb.subscribers ++ [influxHandler repo.config] ∧
    eb2.subscribers.length = eb.subscribers.length + 1 := by
  simp only [NewInfluxRepo] at h
  split at h
  · cases h
  · split at h
    · cases h
    · injection h with h2
      injection h2 with hr hb
      subst hr
      subst hb
      exact ⟨rfl, by simp [Subscribe]⟩

/-- C9: for every delivered event whose point construction succeeds,
exactly one write call is issued and its batch contains exactly one point,
whose field map is the range-loop copy of the event's readings and hence
equals them key for key and value for value. -/
theorem single_write_single_point (cfg : InfluxConfig) (o : HandlerOracle)
    (e : DataCollectedEvent) (hok : o.pointErr = none)
    (hkeys : keysNodup e.Values) :
    (influxHandler cfg o e).writes.length = 1 ∧
    ∃ pt : Point,
      (influxHandler cfg o e).writes =
        [{ database := cfg.database, precision := cfg.precision,
           points := [pt] }] ∧
      pt.fields = copyFields e.Values ∧
      pt.fields = e.Values ∧
      (∀ k, pt.fields.lookup k = e.Values.lookup k) := by
  have hcopy := copyFields_eq e.Values hkeys
  unfold influxHandler
  rcases hw : o.writeErr with _ | msg <;>
    simp [hok, hw, hcopy]

/-- On runs where batch-points creation succeeds, the general handler
model completes and coincides with the point/write model. -/
theorem influxHandlerRun_batch_ok (cfg : InfluxConfig) (o : HandlerOracle)
    (e : DataCollectedEvent) (h : o.batchErr = none) :
    influxHandlerRun cfg o e = some (influxHandler cfg o e) := by
  obtain ⟨now, be, pe, we⟩ := o
  cases be with
  | some mb => cases h
  | none =>
      cases pe <;> cases we <;>
        simp [influxHandlerRun, influxHandler]

/-- C10 counterexample: a concrete delivery whose batch-points creation
errs and whose point creation succeeds does not continue past the batch
error — the nil batch makes `bp.AddPoint` panic and the handler aborts
with no output, refuting "without aborting the handler"; the same delivery
with a working batch runs to completion. -/
theorem batch_error_aborts_counterexample :
    influxHandlerRun cfgA oBatchFail eventA1 = none ∧
    influxHandlerRun cfgA oClock5 eventA1 ≠ none := by
  decide

/-- C10 (amended): the error result of `client.NewBatchPoints` is discarded
at `bp, _ :=` and is never logged — in every run of the handler that
completes, the logged error paths are exactly point-creation failure and
store-write failure — but a batch error is not harmless: when point
creation succeeds, the nil batch returned alongside the discarded error
makes `bp.AddPoint` panic and the handler aborts, producing no output (and
hence no log); the handler survives a batch error only when point creation
fails first, returning after the point-error log without touching the
batch.  When batch creation succeeds, the run completes and is exactly the
point/write model. -/
theorem batch_error_unlogged_but_aborts (cfg : InfluxConfig)
    (o : HandlerOracle) (e : DataCollectedEvent) :
    (∀ out, influxHandlerRun cfg o e = some out →
      (∀ msg, LogEntry.errorPointCreate msg ∈ out.logs ↔
        o.pointErr = some msg) ∧
      (∀ msg, LogEntry.errorWrite msg ∈ out.logs ↔
        (o.pointErr = none ∧ o.writeErr = some msg))) ∧
    (∀ msg2, o.batchErr = some msg2 → o.pointErr = none →
      influxHandlerRun cfg o e = none) ∧
    (∀ msg, o.pointErr = some msg →
      influxHandlerRun cfg o e =
        some { logs := [.errorPointCreate msg], writes := [] }) ∧
    (o.batchErr = none →
      influxHandlerRun cfg o e = some (influxHandler cfg o e)) := by
  obtain ⟨now, be, pe, we⟩ := o
  refine ⟨?_, ?_, ?_, influxHandlerRun_batch_ok cfg _ e⟩
  · intro out hout
    cases be <;> cases pe <;> cases we <;>
      · simp only [influxHandlerRun] at hout
        cases hout
        all_goals constructor <;> intro msg <;> simp [eq_comm]
  · intro msg2 hbe hpe
    cases be with
    | none => cases hbe
    | some mb =>
        cases pe with
        | some mp => cases hpe
        | none => rfl
  · intro msg hpe
    cases pe with
    | none => cases hpe
    | some mp =>
        cases hpe
        cases be <;> rfl

/-! ## Witnesses -/

/-- The round-trip theorem at the concrete scenario of the spec: the event
`{A1, temp 23.5}` delivered with the clock at 5, publish time 4, write
completion 6. -/
theorem persisted_point_roundtrip_witness :
    (influxHandler cfgA oClock5 eventA1).writes =
      [{ database := cfgA.database, precision := cfgA.precision,
         points := [{ measurement := "device_data",
                      tags := [("device", eventA1.DeviceID)],
                      fields := eventA1.Values, timestamp := oClock5.now }] }] ∧
    (∀ bp ∈ (influxHandler cfgA oClock5 eventA1).writes, ∀ pt ∈ bp.points,
      4 ≤ pt.timestamp ∧ pt.timestamp ≤ 6) :=
  persisted_point_roundtrip cfgA oClock5 eventA1 4 6 rfl (by decide)
    (by decide) (by decide)

/-- The containment theorem on a concrete run: a delivery with a failing
write followed by a successful one; the failure is logged, at most one
write call is made, and the second delivery's output is the handler at the
second delivery alone. -/
theorem write_failure_contained_witness :
    (processEvents cfgA deliveriesA)[0]? =
      some (influxHandler cfgA oFail eventA1) ∧
    (influxHandler cfgA oFail eventA1).logs = [.errorWrite "timeout"] ∧
    (influxHandler cfgA oFail eventA1).writes.length ≤ 1 ∧
    (processEvents cfgA deliveriesA)[1]? =
      some (influxHandler cfgA oOk eventA1) :=
  ⟨(write_failure_contained cfgA deliveriesA 0 oFail eventA1 rfl).1,
   (write_failure_contained cfgA deliveriesA 0 oFail eventA1 rfl).2.2.1
     "timeout" rfl rfl,
   (write_failure_contained cfgA deliveriesA 0 oFail eventA1 rfl).2.2.2,
   (write_failure_contained cfgA deliveriesA 1 oOk eventA1 rfl).1⟩

/-- The configuration theorem at concrete environments: each fatal
scenario, and every default of the all-defaults environment. -/
theorem config_fatal_and_defaults_witness :
    NewInfluxRepo envMissingDB none (NewEventBus Handler) =
      .error "influx database is required" ∧
    NewInfluxRepo envBadTimeout none (NewEventBus Handler) =
      .error "failed to parse influx timeout" ∧
    NewInfluxRepo envGood (some "connection refused") (NewEventBus Handler) =
      .error "failed to connect influxdb" ∧
    cfgA.url = "http://localhost:8086" ∧ cfgA.username = "admin" ∧
    cfgA.password = "" ∧ cfgA.precision = "s" ∧ cfgA.timeout = 5000000000 :=
  ⟨(config_fatal_and_defaults envMissingDB none (NewEventBus Handler)).1 rfl,
   (config_fatal_and_defaults envBadTimeout none (NewEventBus Handler)).2.1
     (by decide) (by decide),
   (config_fatal_and_defaults envGood (some "connection refused")
     (NewEventBus Handler)).2.2.1 "connection refused" cfgA rfl rfl,
   ((config_fatal_and_defaults envGood none (NewEventBus Handler)).2.2.2
     cfgA rfl).1 rfl,
   ((config_fatal_and_defaults envGood none (NewEventBus Handler)).2.2.2
     cfgA rfl).2.1 rfl,
   ((config_fatal_and_defaults envGood none (NewEventBus Handler)).2.2.2
     cfgA rfl).2.2.1 rfl,
   ((config_fatal_and_defaults envGood none (NewEventBus Handler)).2.2.2
     cfgA rfl).2.2.2.1 rfl,
   ((config_fatal_and_defaults envGood none (NewEventBus Handler)).2.2.2
     cfgA rfl).2.2.2.2.1 rfl⟩

/-- The registration theorem at a concrete construction: `NewInfluxRepo`
on the all-defaults environment and an empty bus yields a registry holding
exactly the repo's handler. -/
theorem repo_subscribes_exactly_once_witness :
    (EventBus.mk [influxHandler cfgA] : EventBus Handler).subscribers =
      (NewEventBus Handler).subscribers ++
        [influxHandler (InfluxRepo.mk cfgA).config] ∧
    (EventBus.mk [influxHandler cfgA] : EventBus Handler).subscribers.length =
      (NewEventBus Handler).subscribers.length + 1 :=
  repo_subscribes_exactly_once envGood none (NewEventBus Handler)
    (InfluxRepo.mk cfgA) (EventBus.mk [influxHandler cfgA]) rfl

/-- The single-write theorem at the concrete round-trip scenario. -/
theorem single_write_single_point_witness :
    (influxHandler cfgA oClock5 eventA1).writes.length = 1 ∧
    ∃ pt : Point,
      (influxHandler cfgA oClock5 eventA1).writes =
        [{ database := cfgA.database, precision := cfgA.precision,
           points := [pt] }] ∧
      pt.fields = copyFields eventA1.Values ∧
      pt.fields = eventA1.Values ∧
      (∀ k, pt.fields.lookup k = eventA1.Values.lookup k) :=
  single_write_single_point cfgA oClock5 eventA1 rfl (by decide)

/-- The amended batch-error theorem at concrete deliveries: a batch error
with successful point creation aborts the handler, and with a working
batch the run completes as the point/write model. -/
theorem batch_error_unlogged_but_aborts_witness :
    influxHandlerRun cfgA oBatchFail eventA1 = none ∧
    influxHandlerRun cfgA oClock5 eventA1 =
      some (influxHandler cfgA oClock5 eventA1) :=
  ⟨(batch_error_unlogged_but_aborts cfgA oBatchFail eventA1).2.1
     "invalid precision" rfl rfl,
   (batch_error_unlogged_but_aborts cfgA oClock5 eventA1).2.2.2 rfl⟩

end Scaffold
